import Mathlib

/-!
Shallow embedding of the anxiety-detection backend
(`anxiety_detector.py`, `feature_extractor.py`, `model_loader.py`).

Numbers are modelled as rationals (`ℚ`); timestamps are rationals measured
in seconds.  The only genuinely irrational operation in the source,
`numpy.std`'s square root, is threaded through as an explicit parameter
`sq : ℚ → ℚ`, so every theorem quantifies over all interpretations of it.
Python dicts are modelled as association lists in insertion order with
unique keys; `d.get(k, v)` is `dget`.
-/

namespace AnxietyDetection

/-! ## Character classes (ASCII model of Python regex classes) -/

/-- Python `\s` (ASCII fragment): space, tab, newline, carriage return,
vertical tab, form feed. -/
def isSpaceCh (c : Char) : Bool :=
  c = ' ' || c = '\t' || c = '\n' || c = '\r' || c = '\x0b' || c = '\x0c'

/-- Python `\d` (ASCII): decimal digit. -/
def isDigitCh (c : Char) : Bool := c.isDigit

/-- Regex class `[a-zA-Z]`. -/
def isAlphaCh (c : Char) : Bool := c.isAlpha

/-- Python `\w` (ASCII fragment): letter, digit or underscore; used for the
word boundary `\b`. -/
def isWordCh (c : Char) : Bool := c.isAlphanum || c = '_'

/-- Regex class `[0-9a-f]` (the hex pattern in the source is compiled
without `re.I`, so only lower-case letters match). -/
def isLowerHexCh (c : Char) : Bool := c.isDigit || ('a' ≤ c && c ≤ 'f')

/-! ## Generic single-pass leftmost substitution scanner

`re.sub(pattern, repl, s)` scans left to right and replaces each leftmost
non-overlapping match.  The scanner threads the last ORIGINAL character
consumed (`prev`), which is what the word boundary `\b` of `\b\d+\b`
inspects.  `fuel` is an upper bound on the number of scanning steps; it is
always instantiated with the length of the string, which suffices because
every match consumes at least one character. -/

/-- One substitution pass: `tm prev s` returns the remainder of `s` after a
match at the current position (`none` if no match starts here). -/
def subGo (tm : Option Char → List Char → Option (List Char))
    (repl : List Char) : Nat → Option Char → List Char → List Char
  | _, _, [] => []
  | 0, _, s => s
  | n + 1, prev, c :: cs =>
    match tm prev (c :: cs) with
    | some rest =>
        let consumed := (c :: cs).take ((c :: cs).length - rest.length)
        repl ++ subGo tm repl n (consumed.getLast?.orElse (fun _ => prev)) rest
    | none => c :: subGo tm repl n (some c) cs

/-- Run one substitution rule over a whole string. -/
def runSub (tm : Option Char → List Char → Option (List Char))
    (repl : List Char) (s : List Char) : List Char :=
  subGo tm repl s.length none s

/-! ## The seven normalization rules (`normalization_patterns`) -/

/-- Greedy run of characters satisfying `p`: returns `(run, rest)`. -/
def spanCh (p : Char → Bool) : List Char → List Char × List Char
  | [] => ([], [])
  | c :: cs =>
    if p c then
      let (r, rest) := spanCh p cs
      (c :: r, rest)
    else ([], c :: cs)

/-- Match a literal word at the head of the input. -/
def dropWord : List Char → List Char → Option (List Char)
  | [], s => some s
  | _ :: _, [] => none
  | w :: ws, c :: cs => if c = w then dropWord ws cs else none

/-- `line\s+\d+` and `column\s+\d+`: the literal word, then at least one
whitespace character, then at least one digit (both runs greedy). -/
def tryWordNum (word : List Char) (_prev : Option Char) (s : List Char) :
    Option (List Char) :=
  match dropWord word s with
  | none => none
  | some r0 =>
    if (spanCh isSpaceCh r0).1.isEmpty then none
    else
      if (spanCh isDigitCh (spanCh isSpaceCh r0).2).1.isEmpty then none
      else some (spanCh isDigitCh (spanCh isSpaceCh r0).2).2

/-- The `(?:[^\\]+\\)*` tail of the path pattern: greedily consume groups of
(non-empty run of non-backslash characters followed by a backslash). -/
def pathGroups : Nat → List Char → List Char
  | 0, s => s
  | n + 1, s =>
    let (seg, r1) := spanCh (fun c => !(c = '\\')) s
    match seg, r1 with
    | _ :: _, '\\' :: r2 => pathGroups n r2
    | _, _ => s

/-- `[a-zA-Z]:\\(?:[^\\]+\\)*`. -/
def tryPath (_prev : Option Char) (s : List Char) : Option (List Char) :=
  match s with
  | c :: ':' :: '\\' :: rest =>
      if isAlphaCh c then some (pathGroups rest.length rest) else none
  | _ => none

/-- `0x[0-9a-f]+`. -/
def tryHex (_prev : Option Char) (s : List Char) : Option (List Char) :=
  match s with
  | '0' :: 'x' :: rest =>
      if (spanCh isLowerHexCh rest).1.isEmpty then none
      else some (spanCh isLowerHexCh rest).2
  | _ => none

/-- `\b\d+\b`: a maximal digit run with a word boundary on both sides.
`prev` is the original character preceding the current position. -/
def tryBoundedNum (prev : Option Char) (s : List Char) : Option (List Char) :=
  if (match prev with | none => true | some p => !isWordCh p) then
    if (spanCh isDigitCh s).1.isEmpty then none
    else
      match (spanCh isDigitCh s).2 with
      | [] => some []
      | c :: r2 => if isWordCh c then none else some (c :: r2)
  else none

/-- `\"[^\"]*\"` (and with `q := '\''` the pattern `\'[^\']*\'`): a quote,
a greedy run of non-quote characters, a closing quote. -/
def tryQuoted (q : Char) (_prev : Option Char) (s : List Char) :
    Option (List Char) :=
  match s with
  | c :: rest =>
    if c = q then
      match (spanCh (fun d => !(d = q)) rest).2 with
      | d :: r2 => if d = q then some r2 else none
      | [] => none
    else none
  | [] => none

/-! ## Whitespace collapsing: `' '.join(s.split())` -/

/-- `str.split()` with no separator: split on runs of whitespace, dropping
empty words.  `acc` holds the current word, reversed. -/
def pysplitGo (acc : List Char) : List Char → List (List Char)
  | [] => if acc.isEmpty then [] else [acc.reverse]
  | c :: cs =>
    if isSpaceCh c then
      if acc.isEmpty then pysplitGo [] cs else acc.reverse :: pysplitGo [] cs
    else pysplitGo (c :: acc) cs

def pysplit (s : List Char) : List (List Char) := pysplitGo [] s

/-- `' '.join(words)`. -/
def joinSpace : List (List Char) → List Char
  | [] => []
  | [w] => w
  | w :: ws => w ++ ' ' :: joinSpace ws

/-- `' '.join(s.split())` — collapse whitespace runs to single spaces and
strip leading/trailing whitespace. -/
def collapseWs (s : List Char) : List Char := joinSpace (pysplit s)

/-! ## `FeatureExtractor.normalize_error_message` -/

def lineRepl : List Char := "line_num".toList
def colRepl : List Char := "col_num".toList
def pathRepl : List Char := "path".toList
def memRepl : List Char := "memory_addr".toList
def numRepl : List Char := "number".toList
def strRepl : List Char := "string_literal".toList
def chrRepl : List Char := "char_literal".toList

/-- The seven ordered substitution rules of `normalization_patterns`,
applied in declared order, followed by whitespace collapsing
(`feature_extractor.py` lines 29–37 and 68–86). -/
def normalizeL (s : List Char) : List Char :=
  let s1 := runSub (tryWordNum "line".toList) lineRepl s
  let s2 := runSub (tryWordNum "column".toList) colRepl s1
  let s3 := runSub tryPath pathRepl s2
  let s4 := runSub tryHex memRepl s3
  let s5 := runSub tryBoundedNum numRepl s4
  let s6 := runSub (tryQuoted '"') strRepl s5
  let s7 := runSub (tryQuoted '\'') chrRepl s6
  collapseWs s7

/-- `normalize_error_message` on Lean strings. -/
def normalize_error_message (s : String) : String :=
  String.mk (normalizeL s.toList)

example : normalize_error_message "error at line 12" = "error at line_num" := by decide
example : normalize_error_message "undefined reference to `foo`" =
    "undefined reference to `foo`" := by decide
example : normalize_error_message "value 0xaf3 in \"str\" x" =
    "value memory_addr in string_literal x" := by decide
example : normalize_error_message "a  b   c" = "a b c" := by decide
example : normalize_error_message "C:\\Users\\me\\f.c: err 5" =
    "pathf.c: err number" := by decide

/-! ## `FeatureExtractor.classify_error`

Each classification regex is an alternation of plain substrings, except for
three alternatives of the form `a.*b`, where `.` does not match a newline.
The input is lower-cased first (`error_msg.lower()`), so the matchers use
lower-case literals (the patterns carry `re.I`). -/

def hasPrefixL : List Char → List Char → Bool
  | [], _ => true
  | _ :: _, [] => false
  | a :: as, b :: bs => a = b && hasPrefixL as bs

/-- `needle in hay` as substring. -/
def containsL (needle : List Char) : List Char → Bool
  | [] => needle.isEmpty
  | c :: cs => hasPrefixL needle (c :: cs) || containsL needle cs

/-- Does `b` occur at some position of `s` with no newline before it?
(Models the characters matchable by `.*`.) -/
def beforeNewline (b : List Char) : List Char → Bool
  | [] => hasPrefixL b []
  | c :: cs => hasPrefixL b (c :: cs) || (!(c = '\n') && beforeNewline b cs)

/-- Regex `a.*b` searched anywhere in `s`: an occurrence of `a`, then an
occurrence of `b` on the same line. -/
def dotStarL (a b : List Char) : List Char → Bool
  | [] => hasPrefixL a [] && beforeNewline b []
  | c :: cs =>
      (hasPrefixL a (c :: cs) && beforeNewline b ((c :: cs).drop a.length)) ||
      dotStarL a b cs

/-- `str.lower()` (ASCII model). -/
def toLowerL (s : List Char) : List Char := s.map Char.toLower

def sub (t : String) (s : List Char) : Bool := containsL t.toList s

/-- The ordered classification table `error_patterns`
(`feature_extractor.py` lines 40–57), lowered literals. -/
def error_patterns : List (String × (List Char → Bool)) :=
  [ ("syntax_error", fun s => sub "syntax error" s || sub "expected" s || sub "unexpected" s),
    ("missing_semicolon", fun s => dotStarL "expected".toList ";".toList s || dotStarL "missing".toList ";".toList s),
    ("undefined_reference", fun s => sub "undefined reference" s || sub "unresolved external" s),
    ("missing_header", fun s => sub "cannot find" s || sub "no such file" s || sub "include" s),
    ("segmentation_fault", fun s => sub "segmentation fault" s || sub "access violation" s),
    ("null_pointer", fun s => sub "null pointer" s || sub "nullptr" s || sub "null" s),
    ("array_bounds", fun s => sub "array bounds" s || sub "out of bounds" s || dotStarL "index".toList "out of range".toList s),
    ("uninitialized", fun s => sub "uninitialized" s || sub "used without being initialized" s),
    ("memory_leak", fun s => sub "memory leak" s || sub "leaked" s),
    ("buffer_overflow", fun s => sub "buffer overflow" s || sub "stack overflow" s),
    ("type_mismatch", fun s => sub "type mismatch" s || sub "cannot convert" s || sub "incompatible type" s),
    ("no_matching_function", fun s => sub "no matching function" s || dotStarL "overload".toList "not found".toList s),
    ("ambiguous", fun s => sub "ambiguous" s || sub "more than one instance" s),
    ("redefinition", fun s => sub "redefinition" s || sub "multiple definition" s),
    ("undeclared", fun s => sub "not declared" s || sub "undeclared" s),
    ("incomplete_type", fun s => sub "incomplete type" s || sub "forward declaration" s) ]

/-- `classify_error` (`feature_extractor.py` lines 88–104): lower-case the
message, return the first table entry whose pattern matches, else
`"unknown_error"`. -/
def classify_error (error_msg : String) : String :=
  let m := toLowerL error_msg.toList
  match error_patterns.find? (fun p => p.2 m) with
  | some p => p.1
  | none => "unknown_error"

/-! ## Data model -/

/-- A keystroke event after timestamp parsing; timestamps are seconds (ℚ).
`is_backspace` is `none` when the key is absent from the event dict
(`ks.get('is_backspace', False)`). -/
structure Keystroke where
  timestamp : ℚ
  is_backspace : Option Bool
  deriving DecidableEq, Repr

/-- A compile event after timestamp parsing.  `success`, `warning_count` and
`error_message` are `none` when the corresponding key is absent. -/
structure CompileEvent where
  timestamp : ℚ
  success : Option Bool
  warning_count : Option ℚ
  error_message : Option String
  deriving DecidableEq, Repr

structure Session where
  keystrokes : List Keystroke
  compiles : List CompileEvent
  deriving DecidableEq, Repr

/-- The baseline statistics (`FeatureExtractor.__init__`, lines 59–66). -/
structure Baseline where
  typing_speed : ℚ
  backspace_rate : ℚ
  compile_success_rate : ℚ
  keystroke_variance : ℚ
  samples : ℕ
  deriving DecidableEq, Repr

def initial_baseline : Baseline :=
  { typing_speed := 40, backspace_rate := 3/20, compile_success_rate := 7/10,
    keystroke_variance := 3/10, samples := 0 }

/-- `d.get(k, v)` on a Python dict modelled as an association list. -/
def dget {α : Type} (d : List (String × α)) (k : String) (v : α) : α :=
  match d.find? (fun p => p.1 == k) with
  | some p => p.2
  | none => v

/-! ## `FeatureExtractor.extract_typing_features` (lines 106–179) -/

structure TypingFeatures where
  typing_speed : ℚ
  keystroke_variance : ℚ
  backspace_rate : ℚ
  burst_speed : ℚ
  pause_frequency : ℚ
  deriving DecidableEq, Repr

/-- The degenerate default returned for sparse data. -/
def defaultTyping : TypingFeatures :=
  { typing_speed := 1, keystroke_variance := 1/2, backspace_rate := 0,
    burst_speed := 0, pause_frequency := 0 }

/-- Stable sort (models Python `sorted` on a list of numbers; for rationals
any correct sort produces the same list). -/
def insertSorted (x : ℚ) : List ℚ → List ℚ
  | [] => [x]
  | y :: ys => if x ≤ y then x :: y :: ys else y :: insertSorted x ys

def pysorted : List ℚ → List ℚ
  | [] => []
  | x :: xs => insertSorted x (pysorted xs)

/-- `np.mean` over ℚ. -/
def npMean (l : List ℚ) : ℚ := l.sum / l.length

/-- `np.std` (population standard deviation): the square root is the
explicit parameter `sq` applied to the mean squared deviation. -/
def npStd (sq : ℚ → ℚ) (l : List ℚ) : ℚ :=
  sq ((l.map (fun x => (x - npMean l) ^ 2)).sum / l.length)

def extract_typing_features (sq : ℚ → ℚ) (baseline : Baseline)
    (keystrokes : List Keystroke) : TypingFeatures :=
  if keystrokes.length < 10 then defaultTyping
  else
    let ts := keystrokes.map (·.timestamp)
    let intervals := (List.zipWith (fun a b => (b - a) * 1000) ts ts.tail).filter
      (fun i => decide (10 < i ∧ i < 5000))
    if intervals.isEmpty then defaultTyping
    else
      let total_time := ts.getLast?.getD 0 - ts.head?.getD 0
      let wpm := if 0 < total_time then (keystrokes.length : ℚ) / total_time * 12 else 0
      let mean_interval := npMean intervals
      let std_interval := npStd sq intervals
      let variance := if 0 < mean_interval then std_interval / mean_interval else 1/2
      let backspaces := (keystrokes.filter (fun k => k.is_backspace.getD false)).length
      let backspace_rate :=
        if keystrokes.isEmpty then 0 else (backspaces : ℚ) / keystrokes.length
      let sorted_intervals := pysorted intervals
      -- `int(len(sorted_intervals) * 0.1)` truncates; for the list sizes a
      -- session can produce, the float product rounds so that this equals
      -- floor division by 10.
      let burst_threshold := intervals.length / 10
      let burst_intervals :=
        if 0 < burst_threshold then sorted_intervals.take burst_threshold
        else [mean_interval]
      let burst_speed :=
        if burst_intervals.isEmpty then 0 else 1000 / npMean burst_intervals
      let pauses := (intervals.filter (fun i => decide (2000 < i))).length
      let pause_freq := if intervals.isEmpty then 0 else (pauses : ℚ) / intervals.length
      { typing_speed := if 0 < baseline.typing_speed then wpm / baseline.typing_speed else 1
        keystroke_variance := variance
        backspace_rate := backspace_rate
        burst_speed := burst_speed / 10
        pause_frequency := pause_freq }

/-! ## `FeatureExtractor.extract_compile_features` (lines 181–253) -/

/-- Source field name: `repeated_error_ratio` (renamed to satisfy the lexer
of this development). -/
structure CompileFeatures where
  compile_error_rate : ℚ
  red_metric : ℚ
  warning_rate : ℚ
  error_severity : ℚ
  repeated_error_share : ℚ
  deriving DecidableEq, Repr

/-- `not c.get('success', True)`. -/
def isFailed (c : CompileEvent) : Bool := !(c.success.getD true)

/-- `compiles[j].get('success', False)` — the recovery-scan success test. -/
def isRecoveryTarget (c : CompileEvent) : Bool := c.success.getD false

/-- Normalized error messages of failed compiles that carry a message, in
original order (lines 209–214). -/
def errorPatternsOf (compiles : List CompileEvent) : List (List Char) :=
  compiles.filterMap (fun c =>
    if isFailed c then c.error_message.map (fun m => normalizeL m.toList) else none)

/-- Count adjacent equal entries (lines 217–221). -/
def countAdjacentRepeats : List (List Char) → ℕ
  | [] => 0
  | [_] => 0
  | a :: b :: rest => (if a = b then 1 else 0) + countAdjacentRepeats (b :: rest)

def severity_map : List (String × ℚ) :=
  [ ("segmentation_fault", 1), ("memory_leak", 9/10), ("null_pointer", 4/5),
    ("buffer_overflow", 4/5), ("undefined_reference", 3/5), ("syntax_error", 1/2),
    ("type_mismatch", 2/5), ("undeclared", 3/10), ("warning", 1/10) ]

def severitiesOf (compiles : List CompileEvent) : List ℚ :=
  compiles.filterMap (fun c =>
    if isFailed c then
      c.error_message.map (fun m => dget severity_map (classify_error m) (1/2))
    else none)

def extract_compile_features (compiles : List CompileEvent) : CompileFeatures :=
  if compiles.isEmpty then
    { compile_error_rate := 0, red_metric := 0, warning_rate := 0,
      error_severity := 0, repeated_error_share := 0 }
  else
    let total : ℚ := compiles.length
    let failed : ℚ := (compiles.filter isFailed).length
    let error_rate := if 0 < total then failed / total else 0
    let total_warnings := (compiles.map (fun c => c.warning_count.getD 0)).sum
    let warning_rate := if 0 < total then total_warnings / total else 0
    let eps := errorPatternsOf compiles
    let red_metric : ℚ :=
      if 1 < eps.length then (countAdjacentRepeats eps : ℚ) / eps.length * 10 else 0
    let sevs := severitiesOf compiles
    let error_severity := if sevs.isEmpty then 0 else npMean sevs
    { compile_error_rate := error_rate, red_metric := red_metric,
      warning_rate := warning_rate, error_severity := error_severity,
      repeated_error_share := red_metric / 10 }

/-! ## `FeatureExtractor.extract_behavioral_features` (lines 255–330) -/

/-- Source field name for `idle_share`: `idle_ratio`. -/
structure BehavioralFeatures where
  focus_switches : ℚ
  idle_share : ℚ
  session_duration : ℚ
  activity_intensity : ℚ
  recovery_time : ℚ
  deriving DecidableEq, Repr

/-- For each failed compile among `compiles[:-1]`, the gap to the next
successful compile, kept when under 300 s (lines 303–320). -/
def recoveryTimes (compiles : List CompileEvent) : List ℚ :=
  (List.range (compiles.length - 1)).filterMap (fun i =>
    match compiles.get? i with
    | none => none
    | some c =>
      if isFailed c then
        match (compiles.drop (i + 1)).find? isRecoveryTarget with
        | some cj =>
            let r := cj.timestamp - c.timestamp
            if r < 300 then some r else none
        | none => none
      else none)

def extract_behavioral_features (session : Session) : BehavioralFeatures :=
  let keystrokes := session.keystrokes
  let compiles := session.compiles
  if keystrokes.length < 5 then
    { focus_switches := 0, idle_share := 0, session_duration := 0,
      activity_intensity := 0, recovery_time := 0 }
  else
    let ts := keystrokes.map (·.timestamp)
    let duration := (ts.getLast?.getD 0 - ts.head?.getD 0) / 60
    let gaps := List.zipWith (fun a b => b - a) ts ts.tail
    let bigGaps := gaps.filter (fun g => decide (30 < g))
    let idle_time := bigGaps.sum
    let idle_share := if 0 < duration then idle_time / (duration * 60) else 0
    let intensity := if 0 < duration then (keystrokes.length : ℚ) / duration else 0
    let rts := recoveryTimes compiles
    let avg_recovery := if rts.isEmpty then 0 else npMean rts
    { focus_switches := (bigGaps.length : ℚ), idle_share := idle_share,
      session_duration := duration, activity_intensity := intensity / 100,
      recovery_time := avg_recovery / 60 }

/-! ## `FeatureExtractor.extract_all_features` (lines 332–384) and baseline -/

def window_size : ℕ := 100

def get_feature_names : List String :=
  [ "TYPING_SPEED", "KEYSTROKE_RATE", "BACKSPACE_RATE", "COMPILE_ERROR",
    "RED_METRIC", "FOCUS_SWITCHES", "IDLE_TO_ACTIVE_RATIO", "UNDO_REDO_ATTEMPT" ]

/-- Keep the last `n` elements (deque with `maxlen := n` after appends). -/
def takeLast {α : Type} (n : ℕ) (l : List α) : List α := l.drop (l.length - n)

/-- Returns the 8-entry feature dict in canonical order together with the
updated rolling windows (the deque appends at lines 345–350). -/
def extract_all_features (sq : ℚ → ℚ) (baseline : Baseline)
    (rollingK : List Keystroke) (rollingC : List CompileEvent)
    (session : Session) :
    List (String × ℚ) × List Keystroke × List CompileEvent :=
  let rk := takeLast window_size (rollingK ++ takeLast window_size session.keystrokes)
  let rc := takeLast (window_size / 10) (rollingC ++ takeLast 10 session.compiles)
  let t := extract_typing_features sq baseline session.keystrokes
  let c := extract_compile_features session.compiles
  let b := extract_behavioral_features session
  ([ ("TYPING_SPEED", t.typing_speed),
     ("KEYSTROKE_RATE", t.keystroke_variance),
     ("BACKSPACE_RATE", t.backspace_rate),
     ("COMPILE_ERROR", c.compile_error_rate),
     ("RED_METRIC", c.red_metric),
     ("FOCUS_SWITCHES", b.focus_switches),
     ("IDLE_TO_ACTIVE_RATIO", b.idle_share),
     ("UNDO_REDO_ATTEMPT", if 2/5 < t.backspace_rate then 1 else 0) ], rk, rc)

/-- `FeatureExtractor.update_baseline` (lines 386–400); `weight` defaults to
`1/10` at the call site in `analyze_session`. -/
def update_baseline (b : Baseline) (features : List (String × ℚ)) (weight : ℚ) :
    Baseline :=
  { b with
    typing_speed := (1 - weight) * b.typing_speed + weight * dget features "TYPING_SPEED" 1 * 40
    backspace_rate := (1 - weight) * b.backspace_rate + weight * dget features "BACKSPACE_RATE" (3/20)
    keystroke_variance := (1 - weight) * b.keystroke_variance + weight * dget features "KEYSTROKE_RATE" (3/10)
    samples := b.samples + 1 }

/-! ## Feature-vector conversions (`feature_extractor.py` lines 415–422) -/

def dict_to_feature_vector (d : List (String × ℚ)) : List ℚ :=
  get_feature_names.map (fun n => dget d n 0)

/-- `{names[i]: vector[i] for i in range(len(vector))}`; `none` models the
`IndexError` raised when the vector is longer than the name list. -/
def feature_vector_to_dict (v : List ℚ) : Option (List (String × ℚ)) :=
  if v.length ≤ get_feature_names.length then some (get_feature_names.zip v)
  else none

/-! ## `ModelLoader.predict_from_dict` vector construction (lines 189–194) -/

/-- The vector handed to the scaler/classifier: re-ordered by name when the
loader has `feature_names`, otherwise the dict's values in insertion order. -/
def predict_feature_vector (feature_names : Option (List String))
    (feature_dict : List (String × ℚ)) : List ℚ :=
  match feature_names with
  | some names => names.map (fun n => dget feature_dict n 0)
  | none => feature_dict.map (·.2)

/-! ## `AnxietyDetector.get_triggered_features` (lines 104–134) -/

def get_triggered_features (features : List (String × ℚ)) : List String :=
  let triggered :=
    (if 5/2 < dget features "RED_METRIC" 0 then ["Repeated Errors"] else []) ++
    (if dget features "TYPING_SPEED" 1 < 13/20 then ["Slow Typing"] else []) ++
    (if 3/10 < dget features "BACKSPACE_RATE" 0 then ["Excessive Corrections"] else []) ++
    (if 1/2 < dget features "KEYSTROKE_RATE" 0 then ["Irregular Rhythm"] else []) ++
    (if 1/2 < dget features "COMPILE_ERROR" 0 then ["Frequent Compilation Errors"] else []) ++
    (if 5 < dget features "FOCUS_SWITCHES" 0 then ["Frequent Context Switching"] else [])
  if triggered.isEmpty then ["Normal Pattern"] else triggered

/-! ## `AnxietyDetector.should_intervene` (lines 136–149) -/

def intervention_cooldown : ℚ := 300

/-- Returns the decision and the new `last_intervention` state.  `now` is
`datetime.now()` at the moment of the call. -/
def should_intervene (now : ℚ) (anxiety_level : String) (confidence : ℚ)
    (last_intervention : Option ℚ) : Bool × Option ℚ :=
  let levelCheck : Bool × Option ℚ :=
    if (anxiety_level = "High" ∨ anxiety_level = "Extreme") ∧ 7/10 < confidence
    then (true, some now)
    else (false, last_intervention)
  match last_intervention with
  | some t => if now - t < intervention_cooldown then (false, some t) else levelCheck
  | none => levelCheck

/-- Run a sequence of `should_intervene` calls from a given state and
collect the timestamps of the approved calls, in call order. -/
def approvalsFrom (st : Option ℚ) : List (ℚ × String × ℚ) → List ℚ
  | [] => []
  | (now, lvl, conf) :: rest =>
    let r := should_intervene now lvl conf st
    if r.1 then now :: approvalsFrom r.2 rest else approvalsFrom r.2 rest

/-- Final `last_intervention` state after a sequence of calls. -/
def finalStateFrom (st : Option ℚ) : List (ℚ × String × ℚ) → Option ℚ
  | [] => st
  | (now, lvl, conf) :: rest => finalStateFrom (should_intervene now lvl conf st).2 rest

/-! ## `AnxietyDetector.analyze_session` (lines 53–102) -/

/-- A raw event timestamp: `none` models an ISO-8601 string that
`datetime.fromisoformat` rejects. -/
structure RawKeystroke where
  timestamp : Option ℚ
  is_backspace : Option Bool
  deriving DecidableEq, Repr

structure RawCompile where
  timestamp : Option ℚ
  success : Option Bool
  warning_count : Option ℚ
  error_message : Option String
  deriving DecidableEq, Repr

/-- Outer `Option`: is the key present; inner: does it parse. -/
structure RawSession where
  session_start : Option (Option ℚ)
  last_activity : Option (Option ℚ)
  keystrokes : List RawKeystroke
  compiles : List RawCompile
  deriving DecidableEq, Repr

def parseField : Option (Option ℚ) → Option Unit
  | none => some ()
  | some none => none
  | some (some _) => some ()

/-- The timestamp-parsing prologue of `analyze_session` (lines 63–77):
any malformed timestamp aborts the whole request. -/
def parseSession (raw : RawSession) : Option Session := do
  let _ ← parseField raw.session_start
  let _ ← parseField raw.last_activity
  let ks ← raw.keystrokes.mapM (fun k =>
    k.timestamp.map (fun t => ({ timestamp := t, is_backspace := k.is_backspace } : Keystroke)))
  let cs ← raw.compiles.mapM (fun c =>
    c.timestamp.map (fun t =>
      ({ timestamp := t, success := c.success, warning_count := c.warning_count,
         error_message := c.error_message } : CompileEvent)))
  pure { keystrokes := ks, compiles := cs }

/-- Detector state shared across requests: the baseline, the intervention
cooldown state, and the informational rolling windows. -/
structure DetState where
  baseline : Baseline
  last_intervention : Option ℚ
  rolling_keystrokes : List Keystroke
  rolling_compiles : List CompileEvent
  deriving DecidableEq, Repr

structure Prediction where
  level : String
  confidence : ℚ
  probabilities : List (String × ℚ)
  deriving DecidableEq, Repr

/-- The response payload; source key of `intervene` is `'should_intervene'`. -/
structure AnalysisResult where
  level : String
  confidence : ℚ
  probabilities : List (String × ℚ)
  features : List (String × ℚ)
  triggered_features : List String
  timestamp : ℚ
  intervene : Bool
  deriving DecidableEq, Repr

/-- `analyze_session`: parse, extract (updating rolling windows), update
baseline, consult the oracle, compute triggered features and the
intervention decision.  An abort (`Except.error`) carries the state as
mutated so far, exactly as a propagating Python exception would leave the
object. -/
def analyze_session (sq : ℚ → ℚ)
    (oracle : List (String × ℚ) → Except String Prediction) (now : ℚ)
    (raw : RawSession) (st : DetState) :
    DetState × Except String AnalysisResult :=
  match parseSession raw with
  | none => (st, Except.error "InputParseError")
  | some session =>
    let ex := extract_all_features sq st.baseline st.rolling_keystrokes
      st.rolling_compiles session
    let features := ex.1
    let st1 : DetState :=
      { st with rolling_keystrokes := ex.2.1, rolling_compiles := ex.2.2,
                baseline := update_baseline st.baseline features (1/10) }
    match oracle features with
    | Except.error e => (st1, Except.error e)
    | Except.ok pred =>
      let triggered := get_triggered_features features
      let dec := should_intervene now pred.level pred.confidence st1.last_intervention
      let st2 := { st1 with last_intervention := dec.2 }
      (st2, Except.ok
        { level := pred.level, confidence := pred.confidence,
          probabilities := pred.probabilities, features := features,
          triggered_features := triggered, timestamp := now, intervene := dec.1 })

attribute [local semireducible] Rat.mul Rat.inv Rat.add Rat.sub

example : classify_error "Undefined reference to `foo`" = "undefined_reference" := by decide
example : classify_error "expected ';' before token" = "syntax_error" := by decide
example : classify_error "missing terminating ;" = "missing_semicolon" := by decide
example : classify_error "something odd happened" = "unknown_error" := by decide
example : classify_error "NULL value" = "null_pointer" := by decide

/-! ## Theorems -/

/-! ### C1: the intervention cooldown state machine -/

lemma should_intervene_fst_iff (now : ℚ) (lvl : String) (conf : ℚ)
    (last : Option ℚ) :
    (should_intervene now lvl conf last).1 = true ↔
      (∀ t, last = some t → intervention_cooldown ≤ now - t) ∧
      (lvl = "High" ∨ lvl = "Extreme") ∧ 7/10 < conf := by
  cases last with
  | none =>
    simp only [should_intervene]
    split_ifs with h
    · simpa using h
    · simpa using h
  | some t =>
    simp only [should_intervene]
    split_ifs with hcd hlvl
    · simp only [not_lt] at *
      constructor
      · intro h; cases h
      · rintro ⟨h, -⟩
        exact absurd (h t rfl) (by simpa using hcd)
    · simp only [not_lt] at hcd
      constructor
      · intro _
        exact ⟨by rintro t' ⟨rfl⟩; exact hcd, hlvl⟩
      · intro _; rfl
    · simp only [not_lt] at hcd
      constructor
      · intro h; cases h
      · rintro ⟨-, h⟩; exact absurd h hlvl

lemma should_intervene_snd (now : ℚ) (lvl : String) (conf : ℚ)
    (last : Option ℚ) :
    (should_intervene now lvl conf last).2 =
      if (should_intervene now lvl conf last).1 = true then some now else last := by
  cases last with
  | none =>
    simp only [should_intervene]
    split_ifs <;> simp_all
  | some t =>
    simp only [should_intervene]
    split_ifs <;> simp_all

lemma approvalsFrom_pairwise (calls : List (ℚ × String × ℚ)) :
    ∀ st : Option ℚ,
      (approvalsFrom st calls).Pairwise
        (fun a b => a + intervention_cooldown ≤ b) ∧
      (∀ t0, st = some t0 →
        ∀ t ∈ approvalsFrom st calls, t0 + intervention_cooldown ≤ t) := by
  induction calls with
  | nil => intro st; simp [approvalsFrom]
  | cons c rest ih =>
    rintro st
    obtain ⟨now, lvl, conf⟩ := c
    simp only [approvalsFrom]
    by_cases hb : (should_intervene now lvl conf st).1 = true
    · have hst : (should_intervene now lvl conf st).2 = some now := by
        rw [should_intervene_snd, if_pos hb]
      simp only [hb, if_true]
      have hrest := ih (should_intervene now lvl conf st).2
      constructor
      · refine List.pairwise_cons.mpr ⟨?_, hrest.1⟩
        intro b hbmem
        exact hrest.2 now hst b hbmem
      · rintro t0 rfl t ht
        have hiff := (should_intervene_fst_iff now lvl conf (some t0)).mp hb
        have h300 := hiff.1 t0 rfl
        have hpos : (0:ℚ) < intervention_cooldown := by norm_num [intervention_cooldown]
        rcases List.mem_cons.mp ht with rfl | hmem
        · linarith
        · have h1 := hrest.2 now hst t hmem
          linarith
    · simp only [hb, if_false]
      have hst : (should_intervene now lvl conf st).2 = st := by
        rw [should_intervene_snd, if_neg hb]
      have hrest := ih (should_intervene now lvl conf st).2
      constructor
      · exact hrest.1
      · rintro t0 rfl t ht
        exact hrest.2 t0 (by rw [hst]) t ht

/-- C1: `should_intervene` approves iff no prior approval is less than
`cooldown_seconds = 300` old, the level is High or Extreme and the
confidence exceeds 0.7; an approval stamps `last_intervention := now` and a
refusal leaves it unchanged; consequently in any call sequence the approved
timestamps are pairwise at least the cooldown apart. -/
theorem C1_should_intervene_cooldown :
    (∀ (now : ℚ) (lvl : String) (conf : ℚ) (last : Option ℚ),
      ((should_intervene now lvl conf last).1 = true ↔
        (∀ t, last = some t → intervention_cooldown ≤ now - t) ∧
        (lvl = "High" ∨ lvl = "Extreme") ∧ 7/10 < conf)) ∧
    (∀ (now : ℚ) (lvl : String) (conf : ℚ) (last : Option ℚ),
      (should_intervene now lvl conf last).2 =
        if (should_intervene now lvl conf last).1 = true then some now else last) ∧
    (∀ calls : List (ℚ × String × ℚ),
      (approvalsFrom none calls).Pairwise
        (fun a b => a + intervention_cooldown ≤ b)) :=
  ⟨should_intervene_fst_iff, should_intervene_snd,
   fun calls => (approvalsFrom_pairwise calls none).1⟩

/-- Witness for C1 at concrete inputs: a fresh-state Extreme/0.9 call is
approved, an identical call 10 seconds later is refused, and the approved
timestamps of that two-call sequence are trivially spaced. -/
theorem C1_should_intervene_cooldown_witness :
    (should_intervene 0 "Extreme" (9/10) none).1 = true ∧
    (should_intervene 10 "Extreme" (9/10) (some 0)).1 = false ∧
    approvalsFrom none [(0, "Extreme", 9/10), (10, "Extreme", 9/10)] = [0] := by
  refine ⟨?_, ?_, ?_⟩
  · exact (C1_should_intervene_cooldown.1 0 "Extreme" (9/10) none).mpr
      ⟨by simp, Or.inr rfl, by norm_num⟩
  · by_contra h
    have hb : (should_intervene 10 "Extreme" (9/10) (some 0)).1 = true := by
      revert h; cases (should_intervene 10 "Extreme" (9/10) (some 0)).1 <;> simp
    have := ((C1_should_intervene_cooldown.1 10 "Extreme" (9/10) (some 0)).mp hb).1 0 rfl
    norm_num [intervention_cooldown] at this
  · simp only [approvalsFrom]
    norm_num [should_intervene, intervention_cooldown]

/-! ### C3: RED metric bounds and the repeated-error share -/

lemma countAdjacentRepeats_le (l : List (List Char)) :
    countAdjacentRepeats l ≤ l.length - 1 := by
  induction l with
  | nil => simp [countAdjacentRepeats]
  | cons a t ih =>
    cases t with
    | nil => simp [countAdjacentRepeats]
    | cons b r =>
      simp only [countAdjacentRepeats, List.length_cons] at ih ⊢
      split_ifs <;> omega

/-- C3: `red_metric` is adjacent-repeats ÷ pattern-count × 10 (0 for fewer
than two patterns), always lies in `[0, 10]`, and `repeated_error_ratio`
(field `repeated_error_share`) is exactly `red_metric / 10`. -/
theorem C3_red_metric_spec (compiles : List CompileEvent) :
    (extract_compile_features compiles).red_metric =
      (if 1 < (errorPatternsOf compiles).length then
        (countAdjacentRepeats (errorPatternsOf compiles) : ℚ) /
          (errorPatternsOf compiles).length * 10
       else 0) ∧
    0 ≤ (extract_compile_features compiles).red_metric ∧
    (extract_compile_features compiles).red_metric ≤ 10 ∧
    (extract_compile_features compiles).repeated_error_share =
      (extract_compile_features compiles).red_metric / 10 := by
  have hred : (extract_compile_features compiles).red_metric =
      (if 1 < (errorPatternsOf compiles).length then
        (countAdjacentRepeats (errorPatternsOf compiles) : ℚ) /
          (errorPatternsOf compiles).length * 10
       else 0) := by
    by_cases hc : compiles.isEmpty
    · have : compiles = [] := by
        cases compiles with
        | nil => rfl
        | cons a l => simp at hc
      subst this
      simp [extract_compile_features, errorPatternsOf]
    · simp [extract_compile_features, hc]
  have hshare : (extract_compile_features compiles).repeated_error_share =
      (extract_compile_features compiles).red_metric / 10 := by
    by_cases hc : compiles.isEmpty
    · have : compiles = [] := by
        cases compiles with
        | nil => rfl
        | cons a l => simp at hc
      subst this
      simp [extract_compile_features]
    · simp [extract_compile_features, hc]
  refine ⟨hred, ?_, ?_, hshare⟩
  · rw [hred]
    split_ifs
    · positivity
    · exact le_refl 0
  · rw [hred]
    split_ifs with hn
    · have hnpos : (0:ℚ) < ((errorPatternsOf compiles).length : ℚ) := by
        exact_mod_cast Nat.lt_trans Nat.zero_lt_one hn
      have hle : (countAdjacentRepeats (errorPatternsOf compiles) : ℚ) ≤
          ((errorPatternsOf compiles).length : ℚ) := by
        exact_mod_cast le_trans (countAdjacentRepeats_le _) (Nat.sub_le _ _)
      have hdiv := (div_le_one hnpos).mpr hle
      have := mul_le_mul_of_nonneg_right hdiv (by norm_num : (0:ℚ) ≤ 10)
      linarith
    · norm_num

/-! ### C10: treatment of a compile event with no `success` key -/

/-- C10 counterexample: in a session with five keystrokes and the compiles
`[{missing success, t=0}, {success, t=60}]`, the missing-`success` event is
NOT a failure source: `recovery_time` is 0, not `(60-0)/60` minutes as the
claim's "failure source" reading would require. -/
theorem C10_missing_success_cex :
    (extract_behavioral_features
      { keystrokes := [⟨0, none⟩, ⟨1, none⟩, ⟨2, none⟩, ⟨3, none⟩, ⟨4, none⟩],
        compiles := [⟨0, none, none, none⟩, ⟨60, some true, none, none⟩] }).recovery_time
      = 0 ∧
    ¬ (extract_behavioral_features
      { keystrokes := [⟨0, none⟩, ⟨1, none⟩, ⟨2, none⟩, ⟨3, none⟩, ⟨4, none⟩],
        compiles := [⟨0, none, none, none⟩, ⟨60, some true, none, none⟩] }).recovery_time
      = ((60 : ℚ) - 0) / 60 := by
  constructor
  · decide
  · decide

lemma errorPatternsOf_all_missing {cs : List CompileEvent}
    (h : ∀ c ∈ cs, c.success = none) : errorPatternsOf cs = [] := by
  induction cs with
  | nil => rfl
  | cons c rest ih =>
    have hc : c.success = none := h c (List.mem_cons_self c rest)
    have hf : isFailed c = false := by simp [isFailed, hc]
    have ih2 := ih (fun d hd => h d (List.mem_cons_of_mem c hd))
    simpa [errorPatternsOf, hf] using ih2

lemma severitiesOf_all_missing {cs : List CompileEvent}
    (h : ∀ c ∈ cs, c.success = none) : severitiesOf cs = [] := by
  induction cs with
  | nil => rfl
  | cons c rest ih =>
    have hc : c.success = none := h c (List.mem_cons_self c rest)
    have hf : isFailed c = false := by simp [isFailed, hc]
    have ih2 := ih (fun d hd => h d (List.mem_cons_of_mem c hd))
    simpa [severitiesOf, hf] using ih2

lemma recoveryTimes_all_missing {cs : List CompileEvent}
    (h : ∀ c ∈ cs, c.success = none) : recoveryTimes cs = [] := by
  unfold recoveryTimes
  rw [List.filterMap_eq_nil_iff]
  intro i hi
  match hg : cs.get? i with
  | none => simp
  | some c =>
    have hc : c.success = none := h c (List.get?_mem hg)
    have : isFailed c = false := by simp [isFailed, hc]
    simp [this]

/-- C10 (amended): an event whose `success` key is absent is treated as
successful by every `get('success', True)` site — it is not failed for the
error rate, contributes no RED pattern and no severity, and is not a
recovery failure source — while the forward recovery scan's
`get('success', False)` treats it as not successful, so it terminates no
recovery interval. -/
theorem C10_missing_success_spec :
    (∀ c : CompileEvent, c.success = none →
      isFailed c = false ∧ isRecoveryTarget c = false) ∧
    (∀ (c : CompileEvent) (cs : List CompileEvent), c.success = none →
      (c :: cs).find? isRecoveryTarget = cs.find? isRecoveryTarget) ∧
    (∀ cs : List CompileEvent, (∀ c ∈ cs, c.success = none) →
      (extract_compile_features cs).compile_error_rate = 0 ∧
      (extract_compile_features cs).red_metric = 0 ∧
      (extract_compile_features cs).error_severity = 0 ∧
      recoveryTimes cs = []) := by
  refine ⟨?_, ?_, ?_⟩
  · intro c hc
    constructor
    · simp [isFailed, hc]
    · simp [isRecoveryTarget, hc]
  · intro c cs hc
    have : isRecoveryTarget c = false := by simp [isRecoveryTarget, hc]
    simp [List.find?, this]
  · intro cs h
    have hfail : cs.filter isFailed = [] := by
      rw [List.filter_eq_nil_iff]
      intro c hmem
      have hc : c.success = none := h c hmem
      simp [isFailed, hc]
    have heps := errorPatternsOf_all_missing h
    have hsev := severitiesOf_all_missing h
    refine ⟨?_, ?_, ?_, recoveryTimes_all_missing h⟩
    · by_cases hc : cs.isEmpty
      · simp [extract_compile_features, hc]
      · simp [extract_compile_features, hc, hfail]
    · by_cases hc : cs.isEmpty
      · simp [extract_compile_features, hc]
      · simp [extract_compile_features, hc, heps]
    · by_cases hc : cs.isEmpty
      · simp [extract_compile_features, hc]
      · simp [extract_compile_features, hc, hsev]

/-- Witness for C10 at concrete inputs: a missing-`success` event is neither
failed nor a recovery target, it is skipped by the recovery scan, and a
list of such events yields zero compile-error features. -/
theorem C10_missing_success_spec_witness :
    (isFailed ⟨0, none, none, none⟩ = false ∧
     isRecoveryTarget ⟨0, none, none, none⟩ = false) ∧
    ([⟨0, none, none, none⟩, ⟨7, some true, none, none⟩].find? isRecoveryTarget =
      [(⟨7, some true, none, none⟩ : CompileEvent)].find? isRecoveryTarget) ∧
    (extract_compile_features [⟨0, none, none, none⟩]).compile_error_rate = 0 := by
  refine ⟨C10_missing_success_spec.1 _ rfl, ?_, ?_⟩
  · exact C10_missing_success_spec.2.1 ⟨0, none, none, none⟩ _ rfl
  · exact (C10_missing_success_spec.2.2 [⟨0, none, none, none⟩]
      (by intro c hc; simp at hc; rw [hc])).1

/-! ### C8: vector construction in `predict_from_dict` -/

/-- C8 counterexample: with no loaded `feature_names`, the vector handed to
the predictor is the dict's values in insertion order, not the canonical
re-ordering by name. -/
theorem C8_predict_vector_cex :
    predict_feature_vector none [("KEYSTROKE_RATE", 2), ("TYPING_SPEED", 1)] ≠
      get_feature_names.map
        (fun n => dget [("KEYSTROKE_RATE", 2), ("TYPING_SPEED", 1)] n 0) := by
  decide

lemma dget_eq_default_of_not_mem {d : List (String × ℚ)} {k : String}
    (h : ∀ p ∈ d, p.1 ≠ k) (v : ℚ) : dget d k v = v := by
  unfold dget
  have : d.find? (fun p => p.1 == k) = none := by
    rw [List.find?_eq_none]
    intro p hp
    simpa using h p hp
  rw [this]

/-- C8 (amended): when the loader has `feature_names`, the vector is the
names mapped through `d.get(name, 0)` — so it depends only on the dict's
key-to-value lookup (key order and extra keys are irrelevant) and a missing
named feature contributes 0; when `feature_names` is absent, the dict's
values are used in insertion order. -/
theorem C8_predict_vector_spec :
    (∀ (names : List String) (d : List (String × ℚ)),
      predict_feature_vector (some names) d = names.map (fun n => dget d n 0)) ∧
    (∀ (names : List String) (d d' : List (String × ℚ)),
      (∀ k ∈ names, dget d k 0 = dget d' k 0) →
      predict_feature_vector (some names) d = predict_feature_vector (some names) d') ∧
    (∀ (d : List (String × ℚ)) (k : String),
      (∀ p ∈ d, p.1 ≠ k) → dget d k 0 = 0) ∧
    (∀ d : List (String × ℚ), predict_feature_vector none d = d.map Prod.snd) := by
  refine ⟨fun _ _ => rfl, ?_, ?_, fun _ => rfl⟩
  · intro names d d' h
    simp only [predict_feature_vector]
    exact List.map_congr_left (fun n hn => h n hn)
  · intro d k h
    exact dget_eq_default_of_not_mem h 0

/-- Witness for C8 at concrete inputs: reordering and extra keys do not
change the constructed vector, and a missing name contributes 0. -/
theorem C8_predict_vector_spec_witness :
    predict_feature_vector (some ["A", "B"]) [("B", 2), ("A", 1)] =
      predict_feature_vector (some ["A", "B"]) [("A", 1), ("C", 7), ("B", 2)] ∧
    dget ([("B", (2:ℚ))]) "A" 0 = 0 := by
  constructor
  · exact C8_predict_vector_spec.2.1 ["A", "B"] [("B", 2), ("A", 1)]
      [("A", 1), ("C", 7), ("B", 2)] (by decide)
  · exact C8_predict_vector_spec.2.2.1 [("B", 2)] "A" (by decide)

/-! ### C2: state mutation on aborted `analyze` requests -/

/-- An oracle that always fails, as `ModelLoader.predict` does when the
model is not loaded. -/
def failingOracle : List (String × ℚ) → Except String Prediction :=
  fun _ => Except.error "Model not loaded"

def emptyRawSession : RawSession :=
  { session_start := none, last_activity := none, keystrokes := [], compiles := [] }

/-- A session whose `session_start` is a malformed ISO string. -/
def badRawSession : RawSession :=
  { session_start := some none, last_activity := none, keystrokes := [], compiles := [] }

def initDetState : DetState :=
  { baseline := initial_baseline, last_intervention := none,
    rolling_keystrokes := [], rolling_compiles := [] }

/-- C2 counterexample: a request that aborts with an oracle error still
mutates the Baseline — `samples` has already been incremented by
`update_baseline`, which runs before the `predict_from_dict` call. -/
theorem C2_analyze_abort_cex :
    (analyze_session id failingOracle 0 emptyRawSession initDetState).2 =
      Except.error "Model not loaded" ∧
    (analyze_session id failingOracle 0 emptyRawSession initDetState).1.baseline ≠
      initDetState.baseline ∧
    (analyze_session id failingOracle 0 emptyRawSession initDetState).1.baseline.samples =
      initDetState.baseline.samples + 1 := by
  refine ⟨rfl, ?_, ?_⟩
  · decide
  · decide

/-- C2 (amended): a request aborted during timestamp parsing leaves the
whole detector state — Baseline and InterventionState included — exactly
unchanged; the baseline update runs only after successful extraction, so a
request aborted by an oracle failure returns an error with
`last_intervention` unchanged but with the Baseline already updated
(`samples` incremented). -/
theorem C2_analyze_error_paths (sq : ℚ → ℚ)
    (oracle : List (String × ℚ) → Except String Prediction) (now : ℚ)
    (raw : RawSession) (st : DetState) :
    (parseSession raw = none →
      analyze_session sq oracle now raw st = (st, Except.error "InputParseError")) ∧
    (∀ session e, parseSession raw = some session →
      oracle (extract_all_features sq st.baseline st.rolling_keystrokes
        st.rolling_compiles session).1 = Except.error e →
      (analyze_session sq oracle now raw st).2 = Except.error e ∧
      (analyze_session sq oracle now raw st).1.last_intervention =
        st.last_intervention ∧
      (analyze_session sq oracle now raw st).1.baseline =
        update_baseline st.baseline
          (extract_all_features sq st.baseline st.rolling_keystrokes
            st.rolling_compiles session).1 (1/10) ∧
      (analyze_session sq oracle now raw st).1.baseline.samples =
        st.baseline.samples + 1) := by
  constructor
  · intro hparse
    simp [analyze_session, hparse]
  · intro session e hparse horacle
    simp [analyze_session, hparse, horacle, update_baseline]

/-- Witness for C2 at concrete inputs: a malformed `session_start` aborts
with the state untouched; an oracle failure aborts with `samples`
incremented. -/
theorem C2_analyze_error_paths_witness :
    analyze_session id failingOracle 0 badRawSession initDetState =
      (initDetState, Except.error "InputParseError") ∧
    (analyze_session id failingOracle 0 emptyRawSession initDetState).1.baseline.samples =
      initDetState.baseline.samples + 1 := by
  constructor
  · exact (C2_analyze_error_paths id failingOracle 0 badRawSession initDetState).1 rfl
  · exact ((C2_analyze_error_paths id failingOracle 0 emptyRawSession initDetState).2
      { keystrokes := [], compiles := [] } "Model not loaded" rfl rfl).2.2.2

/-! ### C7: the triggered-feature rule engine -/

/-- The six threshold checks of `get_triggered_features`, in source order,
paired with their reason strings. -/
def triggerConds (f : List (String × ℚ)) : List (Bool × String) :=
  [ (decide (5/2 < dget f "RED_METRIC" 0), "Repeated Errors"),
    (decide (dget f "TYPING_SPEED" 1 < 13/20), "Slow Typing"),
    (decide (3/10 < dget f "BACKSPACE_RATE" 0), "Excessive Corrections"),
    (decide (1/2 < dget f "KEYSTROKE_RATE" 0), "Irregular Rhythm"),
    (decide (1/2 < dget f "COMPILE_ERROR" 0), "Frequent Compilation Errors"),
    (decide (5 < dget f "FOCUS_SWITCHES" 0), "Frequent Context Switching") ]

section TriggeredFeatures

attribute [local irreducible] Rat.mul Rat.inv Rat.add Rat.sub

set_option maxHeartbeats 1000000 in
/-- C7: the triggered-features list is never empty; it is exactly
`["Normal Pattern"]` iff none of the six independent threshold checks
fires; and when at least one fires it is exactly the reason strings of the
firing checks in the fixed source order. -/
theorem C7_triggered_features_spec (f : List (String × ℚ)) :
    get_triggered_features f ≠ [] ∧
    (get_triggered_features f = ["Normal Pattern"] ↔
      ∀ p ∈ triggerConds f, p.1 = false) ∧
    ((∃ p ∈ triggerConds f, p.1 = true) →
      get_triggered_features f =
        (triggerConds f).filterMap (fun p => if p.1 then some p.2 else none)) := by
  unfold get_triggered_features triggerConds
  by_cases h1 : (5/2:ℚ) < dget f "RED_METRIC" 0 <;>
  by_cases h2 : dget f "TYPING_SPEED" 1 < (13/20:ℚ) <;>
  by_cases h3 : (3/10:ℚ) < dget f "BACKSPACE_RATE" 0 <;>
  by_cases h4 : ((2:ℚ))⁻¹ < dget f "KEYSTROKE_RATE" 0 <;>
  by_cases h5 : ((2:ℚ))⁻¹ < dget f "COMPILE_ERROR" 0 <;>
  by_cases h6 : (5:ℚ) < dget f "FOCUS_SWITCHES" 0 <;>
    simp [h1, h2, h3, h4, h5, h6]

end TriggeredFeatures

/-! ### C9: the feature-vector round trip -/

def keysOf (d : List (String × ℚ)) : List String := d.map Prod.fst

/-- Python `dict.__eq__`: same key sets and equal values (insertion order
is irrelevant to `==`). -/
def pyDictEqB (d1 d2 : List (String × ℚ)) : Bool :=
  (keysOf d1).all (fun k => (keysOf d2).contains k) &&
  (keysOf d2).all (fun k => (keysOf d1).contains k) &&
  (keysOf d1).all (fun k => dget d1 k 0 == dget d2 k 0)

/-- C9 counterexample: for the dict `{TYPING_SPEED: 1}` — restricted to the
canonical names but missing some of them — the round trip returns a dict
with all 8 names (zeros filled in), which is not `==` to the input. -/
theorem C9_round_trip_cex :
    (feature_vector_to_dict (dict_to_feature_vector [("TYPING_SPEED", (1:ℚ))])).map
      (fun r => pyDictEqB r [("TYPING_SPEED", (1:ℚ))]) = some false := by
  decide

lemma zip_self_map {α β : Type} (l : List α) (g : α → β) :
    l.zip (l.map g) = l.map (fun x => (x, g x)) := by
  induction l with
  | nil => rfl
  | cons a t ih => simp [ih]

lemma dget_map_self (l : List String) (g : String → ℚ) (k : String)
    (hk : k ∈ l) : dget (l.map (fun n => (n, g n))) k 0 = g k := by
  induction l with
  | nil => cases hk
  | cons a t ih =>
    by_cases hak : a = k
    · subst hak
      simp [dget, List.find?]
    · have hkt : k ∈ t := by
        rcases List.mem_cons.mp hk with h | h
        · exact absurd h.symm hak
        · exact h
      have hbeq : (a == k) = false := by
        simpa using hak
      simp only [List.map_cons, dget, List.find?, hbeq]
      exact ih hkt

/-- C9 (amended): for every dict whose key set covers all 8 canonical
feature names and contains no others, the round trip
`feature_vector_to_dict (dict_to_feature_vector d)` succeeds and the result
is `==` to `d` as a Python dict; dicts missing canonical names come back
with zeros added, so they fail `==`. -/
theorem C9_round_trip_spec (d : List (String × ℚ))
    (hcov : ∀ k ∈ get_feature_names, k ∈ keysOf d)
    (hsub : ∀ k ∈ keysOf d, k ∈ get_feature_names) :
    feature_vector_to_dict (dict_to_feature_vector d) =
      some (get_feature_names.map (fun n => (n, dget d n 0))) ∧
    pyDictEqB (get_feature_names.map (fun n => (n, dget d n 0))) d = true := by
  constructor
  · unfold feature_vector_to_dict dict_to_feature_vector
    rw [if_pos (by simp)]
    rw [zip_self_map]
  · have hkeys : keysOf (get_feature_names.map (fun n => (n, dget d n 0))) =
        get_feature_names := by
      simp [keysOf, Function.comp_def]
    unfold pyDictEqB
    rw [hkeys]
    simp only [Bool.and_eq_true, List.all_eq_true]
    refine ⟨⟨?_, ?_⟩, ?_⟩
    · intro k hk
      exact List.elem_iff.mpr (hcov k hk)
    · intro k hk
      exact List.elem_iff.mpr (hsub k hk)
    · intro k hk
      rw [dget_map_self _ _ _ hk]
      exact beq_self_eq_true _

/-- Witness for C9 at a concrete dict holding all 8 canonical names in a
scrambled insertion order. -/
theorem C9_round_trip_spec_witness :
    feature_vector_to_dict (dict_to_feature_vector
      [("KEYSTROKE_RATE", 2), ("TYPING_SPEED", 1), ("BACKSPACE_RATE", 3),
       ("COMPILE_ERROR", 4), ("RED_METRIC", 5), ("FOCUS_SWITCHES", 6),
       ("IDLE_TO_ACTIVE_RATIO", 7), ("UNDO_REDO_ATTEMPT", 8)]) =
      some (get_feature_names.map (fun n =>
        (n, dget [("KEYSTROKE_RATE", 2), ("TYPING_SPEED", 1), ("BACKSPACE_RATE", 3),
       ("COMPILE_ERROR", 4), ("RED_METRIC", 5), ("FOCUS_SWITCHES", 6),
       ("IDLE_TO_ACTIVE_RATIO", 7), ("UNDO_REDO_ATTEMPT", 8)] n 0))) ∧
    pyDictEqB (get_feature_names.map (fun n =>
        (n, dget [("KEYSTROKE_RATE", 2), ("TYPING_SPEED", 1), ("BACKSPACE_RATE", 3),
       ("COMPILE_ERROR", 4), ("RED_METRIC", 5), ("FOCUS_SWITCHES", 6),
       ("IDLE_TO_ACTIVE_RATIO", 7), ("UNDO_REDO_ATTEMPT", 8)] n 0)))
      [("KEYSTROKE_RATE", 2), ("TYPING_SPEED", 1), ("BACKSPACE_RATE", 3),
       ("COMPILE_ERROR", 4), ("RED_METRIC", 5), ("FOCUS_SWITCHES", 6),
       ("IDLE_TO_ACTIVE_RATIO", 7), ("UNDO_REDO_ATTEMPT", 8)] = true :=
  C9_round_trip_spec _ (by decide) (by decide)

/-! ### C4: the repeated-undefined-reference scenario -/

/-- C4 counterexample: with failures at t=0 and t=60 and a success at
t=120 (all gaps under 300 s), `recovery_time` is the average over BOTH
failures, `((120-0)+(120-60))/2/60 = 3/2` minutes — not the
first-failure-to-success gap `(120-0)/60 = 2` minutes. -/
theorem C4_recovery_not_first_failure_cex :
    (extract_behavioral_features
      { keystrokes := [⟨0, none⟩, ⟨1, none⟩, ⟨2, none⟩, ⟨3, none⟩, ⟨4, none⟩],
        compiles := [⟨0, some false, none, some "undefined reference to `foo`"⟩,
                     ⟨60, some false, none, some "undefined reference to `foo`"⟩,
                     ⟨120, some true, none, none⟩] }).recovery_time = 3/2 ∧
    ¬ (extract_behavioral_features
      { keystrokes := [⟨0, none⟩, ⟨1, none⟩, ⟨2, none⟩, ⟨3, none⟩, ⟨4, none⟩],
        compiles := [⟨0, some false, none, some "undefined reference to `foo`"⟩,
                     ⟨60, some false, none, some "undefined reference to `foo`"⟩,
                     ⟨120, some true, none, none⟩] }).recovery_time =
      ((120 : ℚ) - 0) / 60 := by
  constructor
  · decide
  · decide

/-- C4 (amended): for the compile sequence `[fail m, fail m, success]` with
`m = "undefined reference to ‵foo‵"`, the two failed compiles produce two
adjacent equal normalized error strings, `red_metric = 5` (1 repeat out of
2 patterns × 10), and — with at least 5 keystrokes so that behavioral
features are computed — `recovery_time` is the average of the two
failure-to-success gaps (each counted only when under 300 s), in minutes. -/
theorem C4_red_scenario (t0 t1 t2 : ℚ) (ks : List Keystroke)
    (hks : 5 ≤ ks.length) (h0 : t2 - t0 < 300) (h1 : t2 - t1 < 300) :
    errorPatternsOf
        [⟨t0, some false, none, some "undefined reference to `foo`"⟩,
         ⟨t1, some false, none, some "undefined reference to `foo`"⟩,
         ⟨t2, some true, none, none⟩] =
      [normalizeL "undefined reference to `foo`".toList,
       normalizeL "undefined reference to `foo`".toList] ∧
    (extract_compile_features
        [⟨t0, some false, none, some "undefined reference to `foo`"⟩,
         ⟨t1, some false, none, some "undefined reference to `foo`"⟩,
         ⟨t2, some true, none, none⟩]).red_metric = 5 ∧
    (extract_behavioral_features
        { keystrokes := ks,
          compiles := [⟨t0, some false, none, some "undefined reference to `foo`"⟩,
                       ⟨t1, some false, none, some "undefined reference to `foo`"⟩,
                       ⟨t2, some true, none, none⟩] }).recovery_time =
      ((t2 - t0) + (t2 - t1)) / 2 / 60 := by
  have heps : errorPatternsOf
        [⟨t0, some false, none, some "undefined reference to `foo`"⟩,
         ⟨t1, some false, none, some "undefined reference to `foo`"⟩,
         ⟨t2, some true, none, none⟩] =
      [normalizeL "undefined reference to `foo`".toList,
       normalizeL "undefined reference to `foo`".toList] := by
    simp [errorPatternsOf, isFailed]
  refine ⟨heps, ?_, ?_⟩
  · have hne : ([⟨t0, some false, none, some "undefined reference to `foo`"⟩,
         ⟨t1, some false, none, some "undefined reference to `foo`"⟩,
         ⟨t2, some true, none, none⟩] : List CompileEvent).isEmpty = false := rfl
    simp only [extract_compile_features, hne, Bool.false_eq_true, if_false, heps]
    norm_num [countAdjacentRepeats]
  · have hrts : recoveryTimes
        [⟨t0, some false, none, some "undefined reference to `foo`"⟩,
         ⟨t1, some false, none, some "undefined reference to `foo`"⟩,
         ⟨t2, some true, none, none⟩] = [t2 - t0, t2 - t1] := by
      simp [recoveryTimes, isFailed, isRecoveryTarget, List.range_succ, h0, h1,
        List.find?]
    simp only [extract_behavioral_features]
    rw [if_neg (by omega)]
    simp only [hrts]
    simp [npMean]

/-- Witness for C4 at t0 = 0, t1 = 60, t2 = 120 with five keystrokes. -/
theorem C4_red_scenario_witness :
    errorPatternsOf
        [⟨0, some false, none, some "undefined reference to `foo`"⟩,
         ⟨60, some false, none, some "undefined reference to `foo`"⟩,
         ⟨120, some true, none, none⟩] =
      [normalizeL "undefined reference to `foo`".toList,
       normalizeL "undefined reference to `foo`".toList] ∧
    (extract_compile_features
        [⟨0, some false, none, some "undefined reference to `foo`"⟩,
         ⟨60, some false, none, some "undefined reference to `foo`"⟩,
         ⟨120, some true, none, none⟩]).red_metric = 5 ∧
    (extract_behavioral_features
        { keystrokes := [⟨0, none⟩, ⟨1, none⟩, ⟨2, none⟩, ⟨3, none⟩, ⟨4, none⟩],
          compiles := [⟨0, some false, none, some "undefined reference to `foo`"⟩,
                       ⟨60, some false, none, some "undefined reference to `foo`"⟩,
                       ⟨120, some true, none, none⟩] }).recovery_time =
      (((120:ℚ) - 0) + ((120:ℚ) - 60)) / 2 / 60 :=
  C4_red_scenario 0 60 120
    [⟨0, none⟩, ⟨1, none⟩, ⟨2, none⟩, ⟨3, none⟩, ⟨4, none⟩]
    (by decide) (by decide) (by decide)

/-! ### C5: totality and first-match order of `classify_error` -/

def error_categories : List String := "unknown_error" :: error_patterns.map Prod.fst

lemma find?_of_first_index {α : Type} (q : α → Bool) (l : List α) :
    ∀ (i : ℕ) (h : i < l.length),
      (∀ j (hj : j < i), q (l.get ⟨j, Nat.lt_trans hj h⟩) = false) →
      q (l.get ⟨i, h⟩) = true →
      l.find? q = some (l.get ⟨i, h⟩) := by
  induction l with
  | nil => intro i h; cases h
  | cons a t ih =>
    intro i h hbefore hi
    cases i with
    | zero =>
      rw [List.find?_cons_of_pos _ (by simpa using hi)]
      rfl
    | succ n =>
      have ha : q a = false := hbefore 0 (Nat.succ_pos n)
      rw [List.find?_cons_of_neg _ (by simp [ha])]
      exact ih n (Nat.lt_of_succ_lt_succ h)
        (fun j hj => hbefore (j + 1) (Nat.succ_lt_succ hj)) hi

/-- C5: `classify_error` always returns a member of the declared category
set (the 16 table categories plus `"unknown_error"`); it returns
`"unknown_error"` when no pattern matches the lower-cased message; and it
returns the i-th category whenever the i-th pattern matches and no earlier
pattern does (first-match-wins in table order). -/
theorem C5_classify_error_spec (msg : String) :
    classify_error msg ∈ error_categories ∧
    ((∀ p ∈ error_patterns, p.2 (toLowerL msg.toList) = false) →
      classify_error msg = "unknown_error") ∧
    (∀ (i : ℕ) (h : i < error_patterns.length),
      (∀ j (hj : j < i),
        (error_patterns.get ⟨j, Nat.lt_trans hj h⟩).2 (toLowerL msg.toList) = false) →
      (error_patterns.get ⟨i, h⟩).2 (toLowerL msg.toList) = true →
      classify_error msg = (error_patterns.get ⟨i, h⟩).1) := by
  have hcl : classify_error msg =
      (match error_patterns.find? (fun p => p.2 (toLowerL msg.toList)) with
       | some p => p.1
       | none => "unknown_error") := rfl
  refine ⟨?_, ?_, ?_⟩
  · rw [hcl]
    cases hf : error_patterns.find? (fun p => p.2 (toLowerL msg.toList)) with
    | none => simp [error_categories]
    | some p =>
      simp only [error_categories, List.mem_cons]
      right
      exact List.mem_map_of_mem Prod.fst (List.mem_of_find?_eq_some hf)
  · intro hnone
    rw [hcl]
    have hn : error_patterns.find? (fun p => p.2 (toLowerL msg.toList)) = none := by
      rw [List.find?_eq_none]
      intro p hp
      intro hq
      rw [hnone p hp] at hq
      cases hq
    rw [hn]
  · intro i h hbefore hi
    rw [hcl, find?_of_first_index (fun p => p.2 (toLowerL msg.toList))
      error_patterns i h hbefore hi]

/-- Witness for C5: `"null value"` matches the `null_pointer` pattern at
table index 5 with no earlier pattern matching, and a message matching no
pattern classifies as `unknown_error`. -/
theorem C5_classify_error_spec_witness :
    classify_error "null value" = (error_patterns.get ⟨5, by decide⟩).1 ∧
    classify_error "everything is fine" = "unknown_error" := by
  constructor
  · exact (C5_classify_error_spec "null value").2.2 5 (by decide) (by decide) (by decide)
  · exact (C5_classify_error_spec "everything is fine").2.1 (by decide)

/-! ### C6: determinism and (conditional) idempotence of `normalize` -/

/-- C6 counterexample: normalization is NOT idempotent.  On `"a":\` the
first pass rewrites the quoted part to `string_literal:\`, and a second
pass then matches the path pattern at `l:\`, giving `string_literapath`. -/
theorem C6_normalize_not_idempotent_cex :
    normalize_error_message (normalize_error_message "\"a\":\\") ≠
      normalize_error_message "\"a\":\\" := by
  decide

lemma spanCh_decomp (p : Char → Bool) :
    ∀ l : List Char, (spanCh p l).1 ++ (spanCh p l).2 = l := by
  intro l
  induction l with
  | nil => rfl
  | cons c cs ih =>
    by_cases hc : p c
    · simp only [spanCh, hc, if_true]
      simpa using ih
    · simp [spanCh, hc]

lemma spanCh_snd_sub (p : Char → Bool) (l : List Char) :
    ∀ c ∈ (spanCh p l).2, c ∈ l := by
  intro c hc
  rw [← spanCh_decomp p l]
  exact List.mem_append_right _ hc

lemma spanCh_fst_pred (p : Char → Bool) :
    ∀ l : List Char, ∀ c ∈ (spanCh p l).1, p c = true := by
  intro l
  induction l with
  | nil => intro c hc; cases hc
  | cons a cs ih =>
    by_cases ha : p a
    · intro c hc
      simp only [spanCh, ha, if_true] at hc
      rcases List.mem_cons.mp (by simpa using hc) with rfl | hmem
      · exact ha
      · exact ih c hmem
    · intro c hc
      simp [spanCh, ha] at hc

lemma spanCh_fst_sub (p : Char → Bool) (l : List Char) :
    ∀ c ∈ (spanCh p l).1, c ∈ l := by
  intro c hc
  rw [← spanCh_decomp p l]
  exact List.mem_append_left _ hc

lemma dropWord_mem : ∀ (w s r : List Char), dropWord w s = some r →
    ∀ c ∈ r, c ∈ s := by
  intro w
  induction w with
  | nil =>
    intro s r h c hc
    cases h
    exact hc
  | cons a as ih =>
    intro s r h c hc
    cases s with
    | nil => cases h
    | cons b bs =>
      by_cases hba : b = a
      · simp only [dropWord, hba, if_true] at h
        exact List.mem_cons_of_mem b (ih bs r h c hc)
      · simp [dropWord, hba] at h

lemma tryWordNum_some_digit (word : List Char) (prev : Option Char)
    (s r : List Char) (h : tryWordNum word prev s = some r) :
    ∃ c ∈ s, isDigitCh c = true := by
  unfold tryWordNum at h
  cases hdw : dropWord word s with
  | none => rw [hdw] at h; cases h
  | some r0 =>
    rw [hdw] at h
    dsimp only at h
    by_cases hws : (spanCh isSpaceCh r0).1.isEmpty
    · simp [hws] at h
    · rw [if_neg hws] at h
      by_cases hds : (spanCh isDigitCh (spanCh isSpaceCh r0).2).1.isEmpty
      · simp [hds] at h
      · cases hdd : (spanCh isDigitCh (spanCh isSpaceCh r0).2).1 with
        | nil => rw [hdd] at hds; simp at hds
        | cons d ds =>
          refine ⟨d, ?_, ?_⟩
          · have hd1 : d ∈ (spanCh isDigitCh (spanCh isSpaceCh r0).2).1 := by
              rw [hdd]; exact List.mem_cons_self d ds
            have hd2 : d ∈ (spanCh isSpaceCh r0).2 :=
              spanCh_fst_sub _ _ d hd1
            have hd3 : d ∈ r0 := spanCh_snd_sub _ _ d hd2
            exact dropWord_mem word s r0 hdw d hd3
          · have hd1 : d ∈ (spanCh isDigitCh (spanCh isSpaceCh r0).2).1 := by
              rw [hdd]; exact List.mem_cons_self d ds
            exact spanCh_fst_pred _ _ d hd1

lemma tryPath_some_colon (prev : Option Char) (s r : List Char)
    (h : tryPath prev s = some r) : ':' ∈ s := by
  unfold tryPath at h
  split at h
  · simp
  · cases h

lemma tryHex_some_digit (prev : Option Char) (s r : List Char)
    (h : tryHex prev s = some r) : ∃ c ∈ s, isDigitCh c = true := by
  unfold tryHex at h
  split at h
  · exact ⟨'0', by simp, by decide⟩
  · cases h

lemma tryBoundedNum_some_digit (prev : Option Char) (s r : List Char)
    (h : tryBoundedNum prev s = some r) : ∃ c ∈ s, isDigitCh c = true := by
  unfold tryBoundedNum at h
  split_ifs at h with hb hds
  cases hdd : (spanCh isDigitCh s).1 with
  | nil => rw [hdd] at hds; simp at hds
  | cons d ds =>
    have hd1 : d ∈ (spanCh isDigitCh s).1 := by
      rw [hdd]; exact List.mem_cons_self d ds
    exact ⟨d, spanCh_fst_sub _ _ d hd1, spanCh_fst_pred _ _ d hd1⟩

lemma tryQuoted_some_mem (q : Char) (prev : Option Char) (s r : List Char)
    (h : tryQuoted q prev s = some r) : q ∈ s := by
  unfold tryQuoted at h
  cases s with
  | nil => cases h
  | cons c rest =>
    by_cases hc : c = q
    · subst hc; exact List.mem_cons_self c rest
    · simp [hc] at h

lemma subGo_eq_self (tm : Option Char → List Char → Option (List Char))
    (repl : List Char) (P : Char → Bool)
    (htm : ∀ prev t r, tm prev t = some r → ∃ c ∈ t, P c = true) :
    ∀ (n : ℕ) (prev : Option Char) (s : List Char),
      (∀ c ∈ s, P c = false) → subGo tm repl n prev s = s := by
  intro n
  induction n with
  | zero =>
    intro prev s h
    cases s <;> simp [subGo]
  | succ n ih =>
    intro prev s h
    cases s with
    | nil => simp [subGo]
    | cons c cs =>
      have hnone : tm prev (c :: cs) = none := by
        cases htc : tm prev (c :: cs) with
        | none => rfl
        | some r =>
          obtain ⟨d, hd, hPd⟩ := htm prev (c :: cs) r htc
          rw [h d hd] at hPd
          cases hPd
      simp only [subGo, hnone]
      rw [ih (some c) cs (fun d hd => h d (List.mem_cons_of_mem c hd))]

lemma runSub_eq_self (tm : Option Char → List Char → Option (List Char))
    (repl : List Char) (P : Char → Bool)
    (htm : ∀ prev t r, tm prev t = some r → ∃ c ∈ t, P c = true)
    (s : List Char) (h : ∀ c ∈ s, P c = false) : runSub tm repl s = s :=
  subGo_eq_self tm repl P htm s.length none s h

/-- A character that can take part in no normalization match: not a digit,
not `:`, not `"`, not `'`. -/
def benignChar (c : Char) : Bool :=
  !isDigitCh c && !(c = ':') && !(c = '"') && !(c = '\'')

lemma normalizeL_benign (s : List Char)
    (h : ∀ c ∈ s, benignChar c = true) : normalizeL s = collapseWs s := by
  have hparts : ∀ c ∈ s, isDigitCh c = false ∧ ¬(c = ':') ∧ ¬(c = '"') ∧
      ¬(c = '\'') := by
    intro c hc
    have hb := h c hc
    simp [benignChar] at hb
    exact ⟨hb.1.1.1, hb.1.1.2, hb.1.2, hb.2⟩
  have hdig : ∀ c ∈ s, isDigitCh c = false := fun c hc => (hparts c hc).1
  have hcolon : ∀ c ∈ s, (decide (c = ':') : Bool) = false :=
    fun c hc => decide_eq_false (hparts c hc).2.1
  have hquote : ∀ c ∈ s, (decide (c = '"') : Bool) = false :=
    fun c hc => decide_eq_false (hparts c hc).2.2.1
  have hapos : ∀ c ∈ s, (decide (c = '\'') : Bool) = false :=
    fun c hc => decide_eq_false (hparts c hc).2.2.2
  have e1 : runSub (tryWordNum "line".toList) lineRepl s = s :=
    runSub_eq_self _ _ isDigitCh (tryWordNum_some_digit "line".toList) s hdig
  have e2 : runSub (tryWordNum "column".toList) colRepl s = s :=
    runSub_eq_self _ _ isDigitCh (tryWordNum_some_digit "column".toList) s hdig
  have e3 : runSub tryPath pathRepl s = s :=
    runSub_eq_self _ _ (fun c => decide (c = ':'))
      (fun prev t r ht => ⟨':', tryPath_some_colon prev t r ht, by simp⟩) s hcolon
  have e4 : runSub tryHex memRepl s = s :=
    runSub_eq_self _ _ isDigitCh tryHex_some_digit s hdig
  have e5 : runSub tryBoundedNum numRepl s = s :=
    runSub_eq_self _ _ isDigitCh tryBoundedNum_some_digit s hdig
  have e6 : runSub (tryQuoted '"') strRepl s = s :=
    runSub_eq_self _ _ (fun c => decide (c = '"'))
      (fun prev t r ht => ⟨'"', tryQuoted_some_mem '"' prev t r ht, by simp⟩) s hquote
  have e7 : runSub (tryQuoted '\'') chrRepl s = s :=
    runSub_eq_self _ _ (fun c => decide (c = '\''))
      (fun prev t r ht => ⟨'\'', tryQuoted_some_mem '\'' prev t r ht, by simp⟩) s hapos
  show collapseWs (runSub (tryQuoted '\'') chrRepl (runSub (tryQuoted '"') strRepl
    (runSub tryBoundedNum numRepl (runSub tryHex memRepl (runSub tryPath pathRepl
      (runSub (tryWordNum "column".toList) colRepl
        (runSub (tryWordNum "line".toList) lineRepl s))))))) = collapseWs s
  rw [e1, e2, e3, e4, e5, e6, e7]

lemma pysplitGo_chars : ∀ (s acc : List Char), ∀ w ∈ pysplitGo acc s,
    ∀ c ∈ w, c ∈ acc ∨ c ∈ s := by
  intro s
  induction s with
  | nil =>
    intro acc w hw c hc
    by_cases ha : acc.isEmpty
    · simp [pysplitGo, ha] at hw
    · simp only [pysplitGo, ha, Bool.false_eq_true, if_false] at hw
      rcases (by simpa using hw : w = acc.reverse) with rfl
      exact Or.inl (by simpa using hc)
  | cons c0 cs ih =>
    intro acc w hw c hc
    by_cases hsp : isSpaceCh c0
    · by_cases ha : acc.isEmpty
      · simp only [pysplitGo, hsp, ha, if_true] at hw
        rcases ih [] w hw c hc with h | h
        · cases h
        · exact Or.inr (List.mem_cons_of_mem c0 h)
      · simp only [pysplitGo, hsp, ha, Bool.false_eq_true, if_false, if_true,
          List.mem_cons] at hw
        rcases hw with rfl | hw
        · exact Or.inl (by simpa using hc)
        · rcases ih [] w hw c hc with h | h
          · cases h
          · exact Or.inr (List.mem_cons_of_mem c0 h)
    · simp only [pysplitGo, hsp, Bool.false_eq_true, if_false] at hw
      rcases ih (c0 :: acc) w hw c hc with h | h
      · rcases List.mem_cons.mp h with rfl | h
        · exact Or.inr (List.mem_cons_self c cs)
        · exact Or.inl h
      · exact Or.inr (List.mem_cons_of_mem c0 h)

lemma pysplitGo_clean : ∀ (s acc : List Char),
    (∀ c ∈ acc, isSpaceCh c = false) →
    ∀ w ∈ pysplitGo acc s, w ≠ [] ∧ ∀ c ∈ w, isSpaceCh c = false := by
  intro s
  induction s with
  | nil =>
    intro acc hacc w hw
    by_cases ha : acc.isEmpty
    · simp [pysplitGo, ha] at hw
    · simp only [pysplitGo, ha, Bool.false_eq_true, if_false] at hw
      rcases (by simpa using hw : w = acc.reverse) with rfl
      constructor
      · simp only [ne_eq, List.reverse_eq_nil_iff]
        intro hnil
        rw [hnil] at ha
        simp at ha
      · intro c hc
        exact hacc c (by simpa using hc)
  | cons c0 cs ih =>
    intro acc hacc w hw
    by_cases hsp : isSpaceCh c0
    · by_cases ha : acc.isEmpty
      · simp only [pysplitGo, hsp, ha, if_true] at hw
        exact ih [] (by intro c hc; cases hc) w hw
      · simp only [pysplitGo, hsp, ha, Bool.false_eq_true, if_false, if_true,
          List.mem_cons] at hw
        rcases hw with rfl | hw
        · constructor
          · simp only [ne_eq, List.reverse_eq_nil_iff]
            intro hnil
            rw [hnil] at ha
            simp at ha
          · intro c hc
            exact hacc c (by simpa using hc)
        · exact ih [] (by intro c hc; cases hc) w hw
    · simp only [pysplitGo, hsp, Bool.false_eq_true, if_false] at hw
      refine ih (c0 :: acc) ?_ w hw
      intro c hc
      rcases List.mem_cons.mp hc with rfl | hc
      · simpa using hsp
      · exact hacc c hc

lemma pysplitGo_append_word : ∀ (w : List Char),
    (∀ c ∈ w, isSpaceCh c = false) →
    ∀ (acc t : List Char), pysplitGo acc (w ++ t) = pysplitGo (w.reverse ++ acc) t := by
  intro w
  induction w with
  | nil => intro _ acc t; rfl
  | cons c w' ih =>
    intro hw acc t
    have hc : isSpaceCh c = false := hw c (List.mem_cons_self c w')
    have hw' : ∀ d ∈ w', isSpaceCh d = false :=
      fun d hd => hw d (List.mem_cons_of_mem c hd)
    show pysplitGo acc (c :: (w' ++ t)) = pysplitGo ((c :: w').reverse ++ acc) t
    simp only [pysplitGo, hc, Bool.false_eq_true, if_false]
    rw [ih hw' (c :: acc) t]
    congr 1
    simp

lemma pysplit_joinSpace : ∀ ws : List (List Char),
    (∀ w ∈ ws, w ≠ [] ∧ ∀ c ∈ w, isSpaceCh c = false) →
    pysplit (joinSpace ws) = ws := by
  intro ws
  induction ws with
  | nil => intro _; rfl
  | cons w ws' ih =>
    intro h
    have hw := h w (List.mem_cons_self w ws')
    cases ws' with
    | nil =>
      show pysplitGo [] (joinSpace [w]) = [w]
      have : joinSpace [w] = w ++ [] := by simp [joinSpace]
      rw [this, pysplitGo_append_word w hw.2 [] []]
      have hrev : (w.reverse ++ []).isEmpty = false := by
        simp only [List.append_nil]
        cases hw' : w.reverse with
        | nil => exact absurd (by simpa using hw') hw.1
        | cons a l => rfl
      simp only [pysplit, pysplitGo, hrev, Bool.false_eq_true, if_false] at *
      simp
    | cons w2 ws'' =>
      have hjoin : joinSpace (w :: w2 :: ws'') = w ++ ' ' :: joinSpace (w2 :: ws'') := rfl
      show pysplitGo [] (joinSpace (w :: w2 :: ws'')) = w :: w2 :: ws''
      rw [hjoin, pysplitGo_append_word w hw.2 [] (' ' :: joinSpace (w2 :: ws''))]
      have hrev : (w.reverse ++ ([] : List Char)).isEmpty = false := by
        simp only [List.append_nil]
        cases hw' : w.reverse with
        | nil => exact absurd (by simpa using hw') hw.1
        | cons a l => rfl
      have hsp : isSpaceCh ' ' = true := by decide
      simp only [pysplitGo, hsp, if_true, hrev, Bool.false_eq_true, if_false]
      have ih2 := ih (fun v hv => h v (List.mem_cons_of_mem w hv))
      simp only [List.append_nil, List.reverse_reverse]
      exact congrArg (w :: ·) ih2

lemma collapseWs_idem (s : List Char) :
    collapseWs (collapseWs s) = collapseWs s := by
  unfold collapseWs
  rw [pysplit_joinSpace (pysplit s) (pysplitGo_clean s [] (by intro c hc; cases hc))]

lemma mem_joinSpace : ∀ (ws : List (List Char)) (c : Char),
    c ∈ joinSpace ws → (∃ w ∈ ws, c ∈ w) ∨ c = ' ' := by
  intro ws
  induction ws with
  | nil => intro c hc; cases hc
  | cons w ws' ih =>
    intro c hc
    cases ws' with
    | nil => exact Or.inl ⟨w, List.mem_cons_self w [], hc⟩
    | cons w2 ws'' =>
      have : c ∈ w ++ ' ' :: joinSpace (w2 :: ws'') := hc
      rcases List.mem_append.mp this with h | h
      · exact Or.inl ⟨w, List.mem_cons_self w _, h⟩
      · rcases List.mem_cons.mp h with rfl | h
        · exact Or.inr rfl
        · rcases ih c h with ⟨v, hv, hcv⟩ | h
          · exact Or.inl ⟨v, List.mem_cons_of_mem w hv, hcv⟩
          · exact Or.inr h

lemma mem_collapseWs (s : List Char) (c : Char) (h : c ∈ collapseWs s) :
    c ∈ s ∨ c = ' ' := by
  rcases mem_joinSpace (pysplit s) c h with ⟨w, hw, hcw⟩ | h
  · rcases pysplitGo_chars s [] w hw c hcw with h | h
    · cases h
    · exact Or.inl h
  · exact Or.inr h

lemma benign_collapseWs (s : List Char) (h : ∀ c ∈ s, benignChar c = true) :
    ∀ c ∈ collapseWs s, benignChar c = true := by
  intro c hc
  rcases mem_collapseWs s c hc with hm | rfl
  · exact h c hm
  · decide

/-- C6 (amended): `normalize_error_message` is a pure function of its input
(deterministic by construction), and it is idempotent on every input
containing no digit, no `:`, no `"` and no `'` — on such inputs it is
exactly whitespace collapsing, which is idempotent.  It is NOT idempotent
in general (see the counterexample). -/
theorem C6_normalize_idempotent_on_benign (s : String)
    (h : ∀ c ∈ s.toList, benignChar c = true) :
    normalize_error_message (normalize_error_message s) =
      normalize_error_message s := by
  unfold normalize_error_message
  have h1 : normalizeL s.toList = collapseWs s.toList := normalizeL_benign s.toList h
  have h2 : (String.mk (normalizeL s.toList)).toList = normalizeL s.toList := rfl
  rw [h2, h1]
  rw [normalizeL_benign (collapseWs s.toList) (benign_collapseWs s.toList h)]
  rw [collapseWs_idem]

/-- Witness for C6 on a benign input. -/
theorem C6_normalize_idempotent_on_benign_witness :
    normalize_error_message (normalize_error_message "expected expression before token") =
      normalize_error_message "expected expression before token" :=
  C6_normalize_idempotent_on_benign "expected expression before token" (by decide)

end AnxietyDetection
